import Mathlib

/-!
Verification of the URL-shortener core (final iteration of the repository's
`main.go`): link-record indexing, alias binding, redirect-time visit
recording, and the visit-histogram lifecycle.

The shallow embedding models:
* the Redis key-value backend as an association list from structured keys to
  stored values (`Store`);
* `sha256` content addressing as the injective constructor `Key.hash`
  (digests are 64-char hex strings, disjoint from generated 11-char base64
  suffixes, so the two key shapes never collide);
* stored Redis strings as `Val`: either an index pointer (a plain suffix
  string) or a JSON-serialized record.  `json.Marshal` is injective and a
  bare suffix string is never valid record JSON, so `json.Unmarshal` into a
  `ShortUrl` succeeds exactly on `Val.record` values;
* the HdrHistogram dependency (`hdr.New` / `RecordValue` / `Encode` /
  `Decode` / `Distribution`), which is an external library not under `src/`,
  modelled from the spec (§4.3 VisitHistogram);
* the handlers `ShortUrlHandler`, `RedirectHandler`, `InfoHandler` as pure
  state-passing functions returning an HTTP-level response and the updated
  store.  Request-body parsing (the excluded HTTP transport) is modelled as
  already-parsed `(original, custom)` string arguments, and the
  crypto-random suffix source as a stream of candidate strings.
-/

namespace UrlShort

/-- A key of the single Redis keyspace.  `raw s` is the string `s` used
directly as a key (record primary keys, i.e. suffixes, and user-supplied
lookup tokens); `hash s` is the sha256 hex digest of `s` (used for both the
by-original and by-alias index entries, which share the digest keyspace).
sha256 is modelled as injective content addressing per the spec's Hasher
contract (§4.1); digests are 64-char hex strings and so never equal a
generated suffix, which the constructor separation reflects. -/
inductive Key where
  | raw (s : String)
  | hash (s : String)
deriving DecidableEq, Repr

/-- Visit metadata of a record (Go struct `Metadata`): creation time
(Unix seconds), visit counter, and the encoded histogram blob. -/
structure Metadata where
  CreatedAt : Int
  Visits : Int
  EncodedHist : List Int
deriving DecidableEq, Repr

/-- A link record (Go struct `ShortUrl`). -/
structure ShortUrl where
  Original : String
  Default : String
  Custom : String
  Meta : Metadata
deriving DecidableEq, Repr

/-- A value stored under a Redis key: an index pointer (plain suffix string)
or a JSON-serialized `ShortUrl` record. -/
inductive Val where
  | ptr (s : String)
  | record (r : ShortUrl)
deriving DecidableEq, Repr

/-- The Redis database: an association list, most recent write first. -/
abbrev Store := List (Key × Val)

/-- `rdb.Get`: first binding of the key, `none` on `redis.Nil`. -/
def get (s : Store) (k : Key) : Option Val :=
  match s with
  | [] => none
  | (k', v) :: rest => if k' = k then some v else get rest k

/-- `rdb.Set`: unconditional write (shadowing any earlier binding). -/
def set (s : Store) (k : Key) (v : Val) : Store :=
  (k, v) :: s

/-- Modelled from the spec (§4.4 `createIfAbsent`): the conditional
"create if absent" backend write the spec prescribes for the final persist
of a freshly generated suffix — succeeds only if the key is unbound.  The
repository's code never performs such a write; this definition exists to
compare the spec's prescribed persist semantics with the code's `set`. -/
def createIfAbsent (s : Store) (k : Key) (v : Val) : Option Store :=
  match get s k with
  | some _ => none
  | none => some (set s k v)

/-- Errors of the histogram component. -/
inductive HistErr where
  | outOfRange
  | decodeError
deriving DecidableEq, Repr

/-- Modelled from the spec (§4.3 VisitHistogram): the HdrHistogram state —
trackable range, precision, window bounds, and buckets of recorded
timestamps.  The library (`github.com/HdrHistogram/hdrhistogram-go`) is an
external dependency not under `src/`; per the spec, the state carries the
window bounds and precision and counts observations into time-ordered
buckets.  Bucket granularity is modelled at exact-value resolution
(each bucket keyed by its start timestamp, kept sorted ascending). -/
structure Hist where
  lowestTrackable : Int
  highestTrackable : Int
  sigfigs : Nat
  startTimeMs : Int
  endTimeMs : Int
  buckets : List (Int × Nat)
deriving DecidableEq, Repr

/-- `hdr.New(lowest, highest, sigfigs)` followed by `SetStartTimeMs` and
`SetEndTimeMs`: an empty histogram with the given range and window. -/
def Hist.new (lo hi : Int) (sig : Nat) (startMs endMs : Int) : Hist :=
  ⟨lo, hi, sig, startMs, endMs, []⟩

/-- Insert one observation into the sorted bucket list, incrementing the
bucket that matches the value or creating a singleton bucket. -/
def insertVal : List (Int × Nat) → Int → List (Int × Nat)
  | [], v => [(v, 1)]
  | (s, c) :: rest, v =>
    if v < s then (v, 1) :: (s, c) :: rest
    else if v = s then (s, c + 1) :: rest
    else (s, c) :: insertVal rest v

/-- `hist.RecordValue(v)`: modelled from the spec — add one observation,
failing with `OutOfRangeValue` when the timestamp falls outside the
configured window. -/
def Hist.record (h : Hist) (v : Int) : Except HistErr Hist :=
  if v < h.lowestTrackable ∨ h.highestTrackable < v then .error .outOfRange
  else .ok { h with buckets := insertVal h.buckets v }

/-- `hist.TotalCount()`: total number of recorded observations. -/
def Hist.totalCount (h : Hist) : Nat :=
  (h.buckets.map (fun b => b.2)).sum

/-- `hist.Distribution()`: the buckets in time order as
`(bucketStart, bucketEnd, count)` bars (at exact-value granularity the
bar's start and end coincide). -/
def Hist.distribution (h : Hist) : List (Int × Int × Nat) :=
  h.buckets.map (fun b => (b.1, b.1, b.2))

/-- Serialize the bucket list as a flat integer sequence. -/
def encodeBuckets : List (Int × Nat) → List Int
  | [] => []
  | (s, c) :: rest => s :: (c : Int) :: encodeBuckets rest

/-- Parse `n` buckets back out of a flat integer sequence. -/
def decodeBuckets : Nat → List Int → Option (List (Int × Nat))
  | 0, [] => some []
  | 0, _ :: _ => none
  | _ + 1, [] => none
  | _ + 1, [_] => none
  | n + 1, s :: c :: rest =>
    (decodeBuckets n rest).map (fun bs => (s, c.toNat) :: bs)

/-- `hist.Encode(hdr.V2CompressedEncodingCookieBase)`: modelled from the
spec — an opaque lossless serialization of range, precision, window bounds
and bucket counts (compression is an internal optimization with no
externally visible contract beyond the round trip). -/
def Hist.encode (h : Hist) : List Int :=
  h.lowestTrackable :: h.highestTrackable :: (h.sigfigs : Int) ::
    h.startTimeMs :: h.endTimeMs :: (h.buckets.length : Int) ::
    encodeBuckets h.buckets

/-- `hdr.Decode`: modelled from the spec — inverse of `Hist.encode`,
failing on malformed blobs. -/
def Hist.decode (l : List Int) : Option Hist :=
  match l with
  | lo :: hi :: sig :: st :: en :: n :: rest =>
    (decodeBuckets n.toNat rest).map
      (fun bs => ⟨lo, hi, sig.toNat, st, en, bs⟩)
  | _ => none

/-- The zero value of `Metadata` (Go zero struct). -/
def Metadata.zero : Metadata := ⟨0, 0, []⟩

/-- `initMetadata`: set `CreatedAt := now` and install a fresh encoded
histogram spanning `hdr.New(100000, oneMonthFromNow.Unix(), 5)` with the
window `[now.UnixMilli(), oneMonthFromNow.UnixMilli()]`.  `now` is Unix
seconds, so `UnixMilli` is `now * 1000`. -/
def initMetadata (now : Int) : Metadata :=
  let oneMonthFromNow := now + 30 * 24 * 60 * 60
  { CreatedAt := now
    Visits := 0
    EncodedHist :=
      (Hist.new 100000 oneMonthFromNow 5 (now * 1000)
        (oneMonthFromNow * 1000)).encode }

/-- The record assembled on the generation path of `ShortUrlHandler`:
the requested original URL, the freshly generated suffix, no custom alias
yet, and freshly initialized metadata. -/
def freshShortUrl (original sfx : String) (now : Int) : ShortUrl :=
  ⟨original, sfx, "", initMetadata now⟩

/-- The record produced by `getByOriginal` when the by-original pointer is
bound to the empty string: the Go method returns with only `Original`
populated (set by the caller) and every other field at its zero value. -/
def emptyFetched (original : String) : ShortUrl :=
  ⟨original, "", "", Metadata.zero⟩

/-- Result of `getByOriginal`: a record was found, the by-original pointer
is unbound (`redis.Nil`), or loading/unmarshalling failed (surfaced as an
internal error by the caller). -/
inductive FetchRes where
  | notFound
  | found (r : ShortUrl)
  | errRes
deriving DecidableEq, Repr

/-- `(*ShortUrl).getByOriginal`: hash the original URL, follow the pointer,
load and unmarshal the record.  A pointer bound to the empty string is
treated by the Go code as "no record" and returns successfully with the
caller's partially initialized struct; a dangling pointer (or a pointer
slot holding a record blob, whose text is never itself a key) makes the
subsequent unmarshal fail. -/
def getByOriginal (store : Store) (original : String) : FetchRes :=
  match get store (.hash original) with
  | none => .notFound
  | some (.record _) => .errRes
  | some (.ptr rid) =>
    if rid = "" then .found (emptyFetched original)
    else
      match get store (.raw rid) with
      | some (.record r) => .found r
      | _ => .errRes

/-- `(*ShortUrl).generateUniqueSuffix`: walk the stream of random
candidates, retrying while the candidate is already a key in the store and
accepting the first absent one (`redis.Nil` on the collision check).
`none` models exhaustion of the random source. -/
def generateUniqueSuffix (store : Store) (cands : List String) : Option String :=
  match cands with
  | [] => none
  | c :: rest =>
    match get store (.raw c) with
    | some _ => generateUniqueSuffix store rest
    | none => some c

/-- An HTTP-level response of the three handlers. -/
inductive HResp where
  | okCreate (r : ShortUrl)
  | okInfo (m : Metadata) (rows : List (List String))
  | redirect (target : String)
  | badRequest (msg : String)
  | serverError
  | notFound
  | noResponse
deriving DecidableEq, Repr

/-- The three unconditional writes closing a successful create request, in
source order: record under the suffix, by-original pointer, by-alias
pointer (the last is written even when no custom alias was supplied). -/
def persistStore (store : Store) (original custom : String) (r : ShortUrl) : Store :=
  set (set (set store (.raw r.Default) (.record r))
    (.hash original) (.ptr r.Default))
    (.hash custom) (.ptr r.Default)

/-- Successful tail of `ShortUrlHandler`: marshal and write the record and
both index pointers, answer 200 with the record. -/
def persistOk (store : Store) (original custom : String) (r : ShortUrl) : HResp × Store :=
  (.okCreate r, persistStore store original custom r)

/-- Alias-handling tail of `ShortUrlHandler` (lines after resolution): when
a custom alias is supplied, look up its digest; reject with 400 if it is
bound to something other than the empty string or this record's suffix,
otherwise adopt the alias; then persist.  A digest slot holding a record
blob reads back as a non-empty string different from the suffix and is
likewise rejected. -/
def aliasAndPersist (store : Store) (original custom : String) (r₀ : ShortUrl) : HResp × Store :=
  if custom = "" then persistOk store original custom r₀
  else
    match get store (.hash custom) with
    | some (.ptr t) =>
      if t ≠ "" ∧ t ≠ r₀.Default then
        (.badRequest "custom url provided is already in use", store)
      else persistOk store original custom { r₀ with Custom := custom }
    | some (.record _) =>
      (.badRequest "custom url provided is already in use", store)
    | none => persistOk store original custom { r₀ with Custom := custom }

/-- `ShortUrlHandler`: validate the original URL, resolve the existing
record through the by-original index, generate a fresh suffix and fresh
metadata on a miss, handle the custom alias, persist. -/
def ShortUrlHandler (store : Store) (original custom : String)
    (cands : List String) (now : Int) : HResp × Store :=
  if original = "" then (.badRequest "required param url is empty", store)
  else
    match getByOriginal store original with
    | .errRes => (.serverError, store)
    | .found r₀ => aliasAndPersist store original custom r₀
    | .notFound =>
      match generateUniqueSuffix store cands with
      | none => (.serverError, store)
      | some sfx => aliasAndPersist store original custom (freshShortUrl original sfx now)

/-- Record part of `(*ShortUrl).updateMetadata`: decode the histogram,
record `now` (Unix seconds), re-encode, and increment the visit counter —
failing without any mutation when decoding or recording fails. -/
def ShortUrl.updateRecord (r : ShortUrl) (now : Int) : Except HistErr ShortUrl :=
  match Hist.decode r.Meta.EncodedHist with
  | none => .error .decodeError
  | some hist =>
    match hist.record now with
    | .error e => .error e
    | .ok hist' =>
      .ok { r with Meta := { r.Meta with
              EncodedHist := hist'.encode
              Visits := r.Meta.Visits + 1 } }

/-- `(*ShortUrl).updateMetadata`: update the record's histogram and visit
counter, then persist it under its suffix. -/
def updateMetadata (store : Store) (r : ShortUrl) (now : Int) :
    Except HistErr (ShortUrl × Store) :=
  match r.updateRecord now with
  | .error e => .error e
  | .ok r' => .ok (r', set store (.raw r'.Default) (.record r'))

/-- Tail of `RedirectHandler` after the by-alias pointer produced a record
id: load the record, update metadata, redirect — 500 on update failure,
404 when the id resolves to nothing unmarshallable. -/
def redirectByRecordId (store : Store) (rid : String) (now : Int) : HResp × Store :=
  match get store (.raw rid) with
  | some (.record r) =>
    match updateMetadata store r now with
    | .ok (r', store') => (.redirect r'.Original, store')
    | .error _ => (.serverError, store)
  | _ => (.notFound, store)

/-- Alias path of `RedirectHandler`: hash the token and follow the by-alias
pointer; a missing pointer leaves the record id empty (the code then looks
up the empty key); a pointer slot holding a record blob yields an id whose
own lookup misses, ending in 404. -/
def redirectByAlias (store : Store) (token : String) (now : Int) : HResp × Store :=
  match get store (.hash token) with
  | some (.record _) => (.notFound, store)
  | some (.ptr rid) => redirectByRecordId store rid now
  | none => redirectByRecordId store "" now

/-- `RedirectHandler`: reject an empty token, try the token as a by-suffix
record key first (falling through to the alias path when the key is unbound
or holds a non-record value), update metadata and redirect on a hit. -/
def RedirectHandler (store : Store) (token : String) (now : Int) : HResp × Store :=
  if token = "" then (.badRequest "redirect url is empty", store)
  else
    match get store (.raw token) with
    | some (.record r) =>
      match updateMetadata store r now with
      | .ok (r', store') => (.redirect r'.Original, store')
      | .error _ => (.serverError, store)
    | _ => redirectByAlias store token now

/-- The hardcoded CSV export cutoff `time.Date(2021, January 1, ...)` of
`getMetadata`, as Unix seconds (the process-local timezone offset is
abstracted to zero). -/
def thisYear : Int := 1609459200

/-- `time.Unix(t, 0).Format(time.RFC3339)`: the RFC3339 rendering of a Unix
timestamp, abstracted to an injective decimal rendering. -/
def fmtTime (t : Int) : String := toString t

/-- `(*ShortUrl).getMetadata`: decode the histogram and assemble the CSV
rows written to the local file `histogram.csv` — a header row followed by
one `from,to,count` row per distribution bar, skipping bars whose start
timestamp falls before the hardcoded 2021-01-01 cutoff.  The file side
effect is modelled as the returned row list. -/
def getMetadata (r : ShortUrl) : Except HistErr (List (List String)) :=
  match Hist.decode r.Meta.EncodedHist with
  | none => .error .decodeError
  | some hist =>
    let header : List (List String) := [["from", "to", "count"]]
    let records := hist.distribution.foldl
      (fun recs v =>
        if v.1 < thisYear then recs
        else recs ++ [[fmtTime v.1, fmtTime v.2.1, toString v.2.2]])
      header
    .ok records

/-- Tail of `InfoHandler` after the by-alias pointer produced a record id:
load the record, run the CSV export, answer 200 with the metadata — 500 on
export failure, and (unlike `RedirectHandler`) no response at all when the
id resolves to nothing unmarshallable. -/
def infoByRecordId (store : Store) (rid : String) : HResp × Store :=
  match get store (.raw rid) with
  | some (.record r) =>
    match getMetadata r with
    | .ok rows => (.okInfo r.Meta rows, store)
    | .error _ => (.serverError, store)
  | _ => (.noResponse, store)

/-- Alias path of `InfoHandler`, mirroring `redirectByAlias`. -/
def infoByAlias (store : Store) (token : String) : HResp × Store :=
  match get store (.hash token) with
  | some (.record _) => (.noResponse, store)
  | some (.ptr rid) => infoByRecordId store rid
  | none => infoByRecordId store ""

/-- `InfoHandler`: reject an empty token, try the token as a by-suffix
record key, fall through to the alias path otherwise; on a hit run the CSV
export and answer with the record's metadata; on a total miss the Go
handler falls off the end of the function without writing any response. -/
def InfoHandler (store : Store) (token : String) : HResp × Store :=
  if token = "" then (.badRequest "url is empty", store)
  else
    match get store (.raw token) with
    | some (.record r) =>
      match getMetadata r with
      | .ok rows => (.okInfo r.Meta rows, store)
      | .error _ => (.serverError, store)
    | _ => infoByAlias store token

/-- `applyRedirects r ts`: the record-level effect of a sequence of
redirect events at the given timestamps, each of which must succeed. -/
def applyRedirects (r : ShortUrl) (ts : List Int) : Option ShortUrl :=
  match ts with
  | [] => some r
  | t :: rest =>
    match r.updateRecord t with
    | .ok r' => applyRedirects r' rest
    | .error _ => none

/-- The resolution phase of a create request bound `r₀` as the record to be
persisted: either the by-original index produced an existing record, or it
missed and the generator delivered a fresh suffix. -/
def resolvesTo (store : Store) (original : String) (cands : List String)
    (now : Int) (r₀ : ShortUrl) : Prop :=
  getByOriginal store original = .found r₀ ∨
    (getByOriginal store original = .notFound ∧
      ∃ sfx, generateUniqueSuffix store cands = some sfx ∧
        r₀ = freshShortUrl original sfx now)

/-- A histogram as created by `initMetadata 0`: range `[100000, 2592000]`
seconds, 5 significant figures, window `[0, 2592000000]` ms, no visits. -/
def demoHist : Hist := Hist.new 100000 2592000 5 0 2592000000

/-- A freshly created record under suffix `s`. -/
def demoRec : ShortUrl :=
  ⟨"https://example.com/x", "s", "", ⟨0, 0, demoHist.encode⟩⟩

/-- A store holding `demoRec` under its suffix. -/
def demoStore : Store := [(Key.raw "s", Val.record demoRec)]

/-- `demoRec` after one successful redirect at second 200000. -/
def demoUpdatedRec : ShortUrl :=
  ⟨"https://example.com/x", "s", "",
    ⟨0, 1, [100000, 2592000, 5, 0, 2592000000, 1, 200000, 1]⟩⟩

/-- `demoStore` after that redirect persisted the updated record. -/
def demoUpdatedStore : Store := set demoStore (.raw "s") (.record demoUpdatedRec)

/-- `freshShortUrl "u" "abc" 0` after two successful redirects at seconds
200000 and 200001. -/
def demoTwiceVisited : ShortUrl :=
  ⟨"u", "abc", "",
    ⟨0, 2, [100000, 2592000, 5, 0, 2592000000, 2, 200000, 1, 200001, 1]⟩⟩

/-- An existing record bound to suffix `abc`. -/
def crecA : ShortUrl := ⟨"https://a.example/", "abc", "", Metadata.zero⟩

/-- A distinct record that also carries suffix `abc`. -/
def crecB : ShortUrl := ⟨"https://b.example/", "abc", "", Metadata.zero⟩

/-- A store in which the by-suffix key `abc` is already bound. -/
def conflictStore : Store := [(Key.raw "abc", Val.record crecA)]

/-- A store whose empty-string digest slot carries a pre-existing alias
binding. -/
def priorAliasStore : Store := [(Key.hash "", Val.ptr "old")]

/-- An existing record with suffix `s` reachable through its by-original
pointer. -/
def aliasDemoRec : ShortUrl :=
  ⟨"https://u.example/", "s", "", ⟨0, 0, demoHist.encode⟩⟩

/-- A store holding `aliasDemoRec` and its by-original index entry. -/
def aliasDemoStore : Store :=
  [(Key.hash "https://u.example/", Val.ptr "s"),
   (Key.raw "s", Val.record aliasDemoRec)]

/-- A histogram with one bucket before the 2021-01-01 export cutoff and one
after it. -/
def cutHist : Hist :=
  ⟨100000, 2000000000, 5, 0, 0, [(100000, 1), (1700000000, 2)]⟩

/-- A record carrying `cutHist`. -/
def cutRec : ShortUrl := ⟨"u", "s", "", ⟨0, 3, cutHist.encode⟩⟩

theorem get_set_self (s : Store) (k : Key) (v : Val) :
    get (set s k v) k = some v := by
  simp [get, set]

theorem get_set_ne (s : Store) (k k' : Key) (v : Val) (h : k ≠ k') :
    get (set s k v) k' = get s k' := by
  simp [get, set, h]

theorem generateUniqueSuffix_fresh (store : Store) (cands : List String)
    (sfx : String) (h : generateUniqueSuffix store cands = some sfx) :
    get store (.raw sfx) = none := by
  induction cands with
  | nil => simp [generateUniqueSuffix] at h
  | cons c rest ih =>
    unfold generateUniqueSuffix at h
    cases hg : get store (.raw c) with
    | some v => rw [hg] at h; exact ih h
    | none => rw [hg] at h; injection h with h; subst h; exact hg

theorem sum_insertVal (bs : List (Int × Nat)) (v : Int) :
    ((insertVal bs v).map (fun b => b.2)).sum =
      (bs.map (fun b => b.2)).sum + 1 := by
  induction bs with
  | nil => simp [insertVal]
  | cons b rest ih =>
    obtain ⟨s, c⟩ := b
    by_cases h1 : v < s
    · simp [insertVal, h1]; omega
    · by_cases h2 : v = s
      · simp [insertVal, h1, h2]; omega
      · simp [insertVal, h1, h2, ih]; omega

theorem totalCount_record (h h' : Hist) (v : Int)
    (hr : h.record v = .ok h') : h'.totalCount = h.totalCount + 1 := by
  unfold Hist.record at hr
  split at hr
  · cases hr
  · injection hr with hr
    subst hr
    simp [Hist.totalCount, sum_insertVal]

theorem decodeBuckets_encodeBuckets (bs : List (Int × Nat)) :
    decodeBuckets bs.length (encodeBuckets bs) = some bs := by
  induction bs with
  | nil => rfl
  | cons b rest ih =>
    obtain ⟨s, c⟩ := b
    simp [encodeBuckets, decodeBuckets, ih]

theorem Hist.decode_encode (h : Hist) : Hist.decode h.encode = some h := by
  obtain ⟨lo, hi, sig, st, en, bs⟩ := h
  simp [Hist.encode, Hist.decode, decodeBuckets_encodeBuckets]

theorem aliasAndPersist_ok (store : Store) (original custom : String)
    (r₀ r : ShortUrl) (S' : Store)
    (h : aliasAndPersist store original custom r₀ = (.okCreate r, S')) :
    (r = r₀ ∨ r = { r₀ with Custom := custom }) ∧
      S' = persistStore store original custom r := by
  unfold aliasAndPersist at h
  split at h
  · simp only [persistOk, Prod.mk.injEq, HResp.okCreate.injEq] at h
    exact ⟨Or.inl h.1.symm, by rw [← h.1, ← h.2]⟩
  · split at h
    · split at h
      · simp at h
      · simp only [persistOk, Prod.mk.injEq, HResp.okCreate.injEq] at h
        exact ⟨Or.inr h.1.symm, by rw [← h.1, ← h.2]⟩
    · simp at h
    · simp only [persistOk, Prod.mk.injEq, HResp.okCreate.injEq] at h
      exact ⟨Or.inr h.1.symm, by rw [← h.1, ← h.2]⟩

theorem shortUrlHandler_ok (store : Store) (original custom : String)
    (cands : List String) (now : Int) (r : ShortUrl) (S' : Store)
    (h : ShortUrlHandler store original custom cands now = (.okCreate r, S')) :
    S' = persistStore store original custom r := by
  unfold ShortUrlHandler at h
  split at h
  · simp at h
  · split at h
    · simp at h
    · exact (aliasAndPersist_ok _ _ _ _ _ _ h).2
    · split at h
      · simp at h
      · exact (aliasAndPersist_ok _ _ _ _ _ _ h).2

theorem handler_resolves (store : Store) (original custom : String)
    (cands : List String) (now : Int) (r₀ : ShortUrl)
    (ho : original ≠ "") (hres : resolvesTo store original cands now r₀) :
    ShortUrlHandler store original custom cands now =
      aliasAndPersist store original custom r₀ := by
  rcases hres with hf | ⟨hnf, sfx, hg, hr⟩
  · simp [ShortUrlHandler, ho, hf]
  · subst hr
    simp [ShortUrlHandler, ho, hnf, hg]

theorem updateRecord_ok_fields (r : ShortUrl) (now : Int) (r' : ShortUrl)
    (h : r.updateRecord now = .ok r') :
    r'.Original = r.Original ∧ r'.Default = r.Default ∧
      r'.Meta.Visits = r.Meta.Visits + 1 := by
  unfold ShortUrl.updateRecord at h
  split at h
  · cases h
  · split at h
    · cases h
    · injection h with h
      subst h
      simp

theorem updateMetadata_ok (store : Store) (r : ShortUrl) (now : Int)
    (r' : ShortUrl) (store' : Store)
    (h : updateMetadata store r now = .ok (r', store')) :
    r.updateRecord now = .ok r' ∧
      store' = set store (.raw r'.Default) (.record r') := by
  rcases hu : r.updateRecord now with e | r''
  · simp [updateMetadata, hu] at h
  · simp only [updateMetadata, hu, Except.ok.injEq, Prod.mk.injEq] at h
    obtain ⟨h1, h2⟩ := h
    subst h1
    exact ⟨rfl, h2.symm⟩

theorem updateRecord_incr (r r'' : ShortUrl) (t : Int)
    (h : r.updateRecord t = .ok r'') :
    r''.Meta.Visits = r.Meta.Visits + 1 ∧
      ((Hist.decode r.Meta.EncodedHist).map Hist.totalCount).map (· + 1) =
        (Hist.decode r''.Meta.EncodedHist).map Hist.totalCount := by
  rcases hd : Hist.decode r.Meta.EncodedHist with _ | hist
  · simp [ShortUrl.updateRecord, hd] at h
  · rcases hr : hist.record t with e | hist'
    · simp [ShortUrl.updateRecord, hd, hr] at h
    · simp only [ShortUrl.updateRecord, hd, hr, Except.ok.injEq] at h
      subst h
      refine ⟨by simp, ?_⟩
      simp [hd, Hist.decode_encode, totalCount_record hist hist' t hr]

theorem updateRecord_count (r r' : ShortUrl) (t : Int) (n : Nat)
    (hv : r.Meta.Visits = (n : Int))
    (hh : (Hist.decode r.Meta.EncodedHist).map Hist.totalCount = some n)
    (h : r.updateRecord t = .ok r') :
    r'.Meta.Visits = ((n + 1 : Nat) : Int) ∧
      (Hist.decode r'.Meta.EncodedHist).map Hist.totalCount = some (n + 1) := by
  obtain ⟨h1, h2⟩ := updateRecord_incr r r' t h
  constructor
  · rw [h1, hv]; push_cast; ring
  · rw [← h2, hh]; rfl

theorem applyRedirects_count (ts : List Int) :
    ∀ (r r' : ShortUrl) (n : Nat),
      r.Meta.Visits = (n : Int) →
      (Hist.decode r.Meta.EncodedHist).map Hist.totalCount = some n →
      applyRedirects r ts = some r' →
      r'.Meta.Visits = ((n + ts.length : Nat) : Int) ∧
        (Hist.decode r'.Meta.EncodedHist).map Hist.totalCount =
          some (n + ts.length) := by
  induction ts with
  | nil =>
    intro r r' n hv hh h
    simp only [applyRedirects, Option.some.injEq] at h
    subst h
    simpa [hv] using hh
  | cons t rest ih =>
    intro r r' n hv hh h
    rcases hu : r.updateRecord t with e | r₁
    · simp [applyRedirects, hu] at h
    · simp only [applyRedirects, hu] at h
      obtain ⟨hv1, hh1⟩ := updateRecord_count r r₁ t n hv hh hu
      obtain ⟨hv2, hh2⟩ := ih r₁ r' (n + 1) hv1 hh1 h
      constructor
      · rw [hv2]; push_cast; simp [List.length_cons]; ring
      · rw [hh2]; congr 1; simp [List.length_cons]; ring

/-- Claim C8: for every histogram state `h`, decoding the bytes produced by
encoding `h` yields a state equal to `h` — bucket counts, window bounds and
precision survive the encode/decode round trip losslessly. -/
theorem C8_histogram_roundtrip (h : Hist) : Hist.decode h.encode = some h :=
  Hist.decode_encode h

/-- Claim C9: every successful create-or-fetch request unconditionally
writes the alias-hash index entry for the digest of the supplied custom
string (the empty string when no alias was given) to this record's suffix,
overwriting any previous binding of that key. -/
theorem C9_alias_key_always_written (store : Store) (original custom : String)
    (cands : List String) (now : Int) (r : ShortUrl) (S' : Store)
    (h : ShortUrlHandler store original custom cands now = (.okCreate r, S')) :
    get S' (.hash custom) = some (.ptr r.Default) := by
  have hS := shortUrlHandler_ok store original custom cands now r S' h
  subst hS
  unfold persistStore
  exact get_set_self _ _ _

/-- Witness for C9 at a store whose empty-string digest slot already held a
binding: an alias-free creation rebinds it to the new record's suffix. -/
theorem C9_witness :
    ShortUrlHandler priorAliasStore "u" "" ["abc"] 0 =
      (.okCreate (freshShortUrl "u" "abc" 0),
        persistStore priorAliasStore "u" "" (freshShortUrl "u" "abc" 0)) ∧
    get priorAliasStore (.hash "") = some (.ptr "old") ∧
    get (persistStore priorAliasStore "u" "" (freshShortUrl "u" "abc" 0))
      (.hash "") = some (.ptr (freshShortUrl "u" "abc" 0).Default) :=
  ⟨by decide, by decide,
    C9_alias_key_always_written priorAliasStore "u" "" ["abc"] 0
      (freshShortUrl "u" "abc" 0)
      (persistStore priorAliasStore "u" "" (freshShortUrl "u" "abc" 0))
      (by decide)⟩

/-- Claim C4 counterexample: the final persist of the creation path (the
by-suffix write of `persistOk`, source lines 643-646) is an unconditional
set, not the conditional create-if-absent the claim asserts: at a store
whose by-suffix key `abc` is already bound to `crecA`, the persist step
overwrites it with the distinct record `crecB`, exactly where the spec's
`createIfAbsent` refuses to write. -/
theorem C4_counterexample :
    get conflictStore (.raw "abc") = some (.record crecA) ∧
    crecA ≠ crecB ∧
    (persistOk conflictStore "https://b.example/" "" crecB).1 = .okCreate crecB ∧
    get (persistOk conflictStore "https://b.example/" "" crecB).2 (.raw "abc") =
      some (.record crecB) ∧
    createIfAbsent conflictStore (.raw "abc") (.record crecB) = none := by
  decide

/-- Claim C4 (amended): in a sequential execution the creation path never
overwrites an existing by-suffix record, because the generation loop only
accepts a suffix whose key is absent from the store and nothing writes
before the persist — but the persist itself is an unconditional set after a
separate existence check, with no conditional create and no
restart-on-conditional-failure. -/
theorem C4_generation_no_overwrite (store : Store) (original custom : String)
    (cands : List String) (now : Int) (r : ShortUrl) (S' : Store)
    (ho : original ≠ "") (hmiss : getByOriginal store original = .notFound)
    (h : ShortUrlHandler store original custom cands now = (.okCreate r, S')) :
    get store (.raw r.Default) = none := by
  rcases hg : generateUniqueSuffix store cands with _ | sfx
  · simp [ShortUrlHandler, ho, hmiss, hg] at h
  · simp only [ShortUrlHandler, hmiss, hg] at h
    rw [if_neg ho] at h
    have hfresh := generateUniqueSuffix_fresh store cands sfx hg
    obtain ⟨hr, -⟩ := aliasAndPersist_ok _ _ _ _ _ _ h
    rcases hr with h1 | h1 <;> subst h1 <;> simpa [freshShortUrl] using hfresh

/-- Witness for the amended C4 at an empty store. -/
theorem C4_witness :
    getByOriginal [] "u" = .notFound ∧
    ShortUrlHandler [] "u" "" ["abc"] 0 =
      (.okCreate (freshShortUrl "u" "abc" 0),
        persistStore [] "u" "" (freshShortUrl "u" "abc" 0)) ∧
    get ([] : Store) (.raw (freshShortUrl "u" "abc" 0).Default) = none :=
  ⟨by decide, by decide,
    C4_generation_no_overwrite [] "u" "" ["abc"] 0 (freshShortUrl "u" "abc" 0)
      (persistStore [] "u" "" (freshShortUrl "u" "abc" 0))
      (by decide) (by decide) (by decide)⟩

/-- Claim C2: when a create request supplies a non-empty custom alias, a
binding of the alias digest to a different (non-empty) suffix is rejected
with 400 and the store is left unchanged, while an unbound digest or one
already pointing at this record's suffix lets the request succeed with the
alias set on the record and the digest bound to the record's suffix. -/
theorem C2_alias_exclusivity (store : Store) (original custom : String)
    (cands : List String) (now : Int) (r₀ : ShortUrl)
    (ho : original ≠ "") (hc : custom ≠ "")
    (hres : resolvesTo store original cands now r₀) :
    (∀ t, get store (.hash custom) = some (.ptr t) → t ≠ "" → t ≠ r₀.Default →
      ShortUrlHandler store original custom cands now =
        (.badRequest "custom url provided is already in use", store)) ∧
    (get store (.hash custom) = none →
      ShortUrlHandler store original custom cands now =
        (.okCreate { r₀ with Custom := custom },
         persistStore store original custom { r₀ with Custom := custom }) ∧
      get (persistStore store original custom { r₀ with Custom := custom })
        (.hash custom) = some (.ptr r₀.Default)) ∧
    (get store (.hash custom) = some (.ptr r₀.Default) →
      ShortUrlHandler store original custom cands now =
        (.okCreate { r₀ with Custom := custom },
         persistStore store original custom { r₀ with Custom := custom })) := by
  rw [handler_resolves store original custom cands now r₀ ho hres]
  refine ⟨?_, ?_, ?_⟩
  · intro t hget ht1 ht2
    simp [aliasAndPersist, hc, hget, ht1, ht2]
  · intro hget
    refine ⟨by simp [aliasAndPersist, hc, hget, persistOk], ?_⟩
    unfold persistStore
    simp [get_set_self]
  · intro hget
    simp [aliasAndPersist, hc, hget, persistOk]

/-- Witness for C2: binding a fresh alias `ex` onto an existing record. -/
theorem C2_witness :
    getByOriginal aliasDemoStore "https://u.example/" = .found aliasDemoRec ∧
    get aliasDemoStore (.hash "ex") = none ∧
    (ShortUrlHandler aliasDemoStore "https://u.example/" "ex" [] 0 =
      (.okCreate { aliasDemoRec with Custom := "ex" },
       persistStore aliasDemoStore "https://u.example/" "ex"
         { aliasDemoRec with Custom := "ex" }) ∧
     get (persistStore aliasDemoStore "https://u.example/" "ex"
         { aliasDemoRec with Custom := "ex" }) (.hash "ex") =
       some (.ptr aliasDemoRec.Default)) :=
  ⟨by decide, by decide,
    (C2_alias_exclusivity aliasDemoStore "https://u.example/" "ex" [] 0
      aliasDemoRec (by decide) (by decide) (Or.inl (by decide))).2.1 (by decide)⟩

/-- Claim C1: two successive successful create-or-fetch requests for the
same original URL with no custom alias return the same suffix — the second
request resolves the by-original pointer written by the first and reuses
the stored record instead of generating anew (the conclusion holds for
every candidate stream of the second request). -/
theorem C1_idempotent_creation (S0 S1 S2 : Store) (url : String)
    (cands cands' : List String) (now now' : Int) (r1 r2 : ShortUrl)
    (ho : url ≠ "")
    (h1 : ShortUrlHandler S0 url "" cands now = (.okCreate r1, S1))
    (h2 : ShortUrlHandler S1 url "" cands' now' = (.okCreate r2, S2)) :
    r2.Default = r1.Default := by
  have hS1 := shortUrlHandler_ok S0 url "" cands now r1 S1 h1
  subst hS1
  have hku : (Key.hash "" : Key) ≠ Key.hash url := by
    intro hh; injection hh with hh; exact ho hh.symm
  have hget1 : get (persistStore S0 url "" r1) (.hash url) =
      some (.ptr r1.Default) := by
    unfold persistStore
    rw [get_set_ne _ _ _ _ hku, get_set_self]
  by_cases hd : r1.Default = ""
  · have hres : getByOriginal (persistStore S0 url "" r1) url =
        .found (emptyFetched url) := by
      simp [getByOriginal, hget1, hd]
    rw [handler_resolves _ _ _ _ _ _ ho (Or.inl hres)] at h2
    simp [aliasAndPersist, persistOk, Prod.mk.injEq] at h2
    rw [← h2.1]
    simp [emptyFetched, hd]
  · have hne1 : (Key.hash "" : Key) ≠ Key.raw r1.Default := by simp
    have hne2 : (Key.hash url : Key) ≠ Key.raw r1.Default := by simp
    have hget2 : get (persistStore S0 url "" r1) (.raw r1.Default) =
        some (.record r1) := by
      unfold persistStore
      rw [get_set_ne _ _ _ _ hne1, get_set_ne _ _ _ _ hne2, get_set_self]
    have hres : getByOriginal (persistStore S0 url "" r1) url = .found r1 := by
      simp [getByOriginal, hget1, hd, hget2]
    rw [handler_resolves _ _ _ _ _ _ ho (Or.inl hres)] at h2
    simp [aliasAndPersist, persistOk, Prod.mk.injEq] at h2
    rw [← h2.1]

/-- Witness for C1 starting from the empty store. -/
theorem C1_witness :
    ShortUrlHandler [] "u" "" ["abc"] 0 =
      (.okCreate (freshShortUrl "u" "abc" 0),
        persistStore [] "u" "" (freshShortUrl "u" "abc" 0)) ∧
    ShortUrlHandler (persistStore [] "u" "" (freshShortUrl "u" "abc" 0))
        "u" "" ["zzz"] 5 =
      (.okCreate (freshShortUrl "u" "abc" 0),
        persistStore (persistStore [] "u" "" (freshShortUrl "u" "abc" 0))
          "u" "" (freshShortUrl "u" "abc" 0)) ∧
    (freshShortUrl "u" "abc" 0).Default = (freshShortUrl "u" "abc" 0).Default :=
  ⟨by decide, by decide,
    C1_idempotent_creation [] (persistStore [] "u" "" (freshShortUrl "u" "abc" 0))
      (persistStore (persistStore [] "u" "" (freshShortUrl "u" "abc" 0)) "u" ""
        (freshShortUrl "u" "abc" 0))
      "u" ["abc"] ["zzz"] 0 5 (freshShortUrl "u" "abc" 0)
      (freshShortUrl "u" "abc" 0) (by decide) (by decide) (by decide)⟩

/-- Claim C5: redirect resolution tries the token as a by-suffix record key
first; only on a miss does it hash the token and follow the by-alias
pointer; when both lookups miss the request is answered 404; on a hit the
stored original URL is the redirect target. -/
theorem C5_redirect_resolution (store : Store) (token : String) (now : Int)
    (ht : token ≠ "") :
    (∀ r r' store', get store (.raw token) = some (.record r) →
      updateMetadata store r now = .ok (r', store') →
      RedirectHandler store token now = (.redirect r.Original, store')) ∧
    (get store (.raw token) = none → get store (.hash token) = none →
      get store (.raw "") = none →
      RedirectHandler store token now = (.notFound, store)) ∧
    (∀ rid r r' store', get store (.raw token) = none →
      get store (.hash token) = some (.ptr rid) →
      get store (.raw rid) = some (.record r) →
      updateMetadata store r now = .ok (r', store') →
      RedirectHandler store token now = (.redirect r.Original, store')) := by
  refine ⟨?_, ?_, ?_⟩
  · intro r r' store' hget hupd
    have horig :=
      (updateRecord_ok_fields r now r' (updateMetadata_ok store r now r' store' hupd).1).1
    simp [RedirectHandler, ht, hget, hupd, horig]
  · intro h1 h2 h3
    simp [RedirectHandler, ht, h1, redirectByAlias, h2, redirectByRecordId, h3]
  · intro rid r r' store' h1 h2 h3 hupd
    have horig :=
      (updateRecord_ok_fields r now r' (updateMetadata_ok store r now r' store' hupd).1).1
    simp [RedirectHandler, ht, h1, redirectByAlias, h2, redirectByRecordId, h3,
      hupd, horig]

/-- Witness for C5: redirecting a stored suffix. -/
theorem C5_witness :
    RedirectHandler demoStore "s" 200000 =
      (.redirect demoRec.Original, demoUpdatedStore) :=
  (C5_redirect_resolution demoStore "s" 200000 (by decide)).1 demoRec
    demoUpdatedRec demoUpdatedStore (by decide) (by rfl)

/-- Claim C6 counterexample: at a record whose histogram window is
`[100000, 2592000]`, a redirect at second 3000000 makes the histogram
update fail and the handler answers 500 instead of the successful redirect
the claim promises — while the same request inside the window does
redirect, showing the update failure is what blocked the response. -/
theorem C6_counterexample :
    (RedirectHandler demoStore "s" 3000000).1 = .serverError ∧
    (RedirectHandler demoStore "s" 200000).1 =
      .redirect "https://example.com/x" := by
  decide

/-- Claim C6 (amended): when the histogram update of a resolved redirect
fails (for example an out-of-range timestamp after the window elapsed), the
handler reports an internal error (HTTP 500) and performs no redirect; the
store is left unchanged. -/
theorem C6_update_failure_is_server_error (store : Store) (token : String)
    (now : Int) (r : ShortUrl) (e : HistErr)
    (ht : token ≠ "") (hget : get store (.raw token) = some (.record r))
    (hupd : updateMetadata store r now = .error e) :
    RedirectHandler store token now = (.serverError, store) := by
  simp [RedirectHandler, ht, hget, hupd]

/-- Witness for the amended C6. -/
theorem C6_witness :
    RedirectHandler demoStore "s" 3000000 = (.serverError, demoStore) :=
  C6_update_failure_is_server_error demoStore "s" 3000000 demoRec .outOfRange
    (by decide) (by decide) (by rfl)

/-- Claim C7 counterexample: a stats request whose token misses both the
by-suffix and by-alias lookups is not answered 404 — the handler falls off
the end of the function and writes no response at all. -/
theorem C7_counterexample :
    (InfoHandler [] "missing").1 = .noResponse ∧
    (InfoHandler [] "missing").1 ≠ .notFound := by
  decide

/-- Claim C7 (amended): stats resolution tries the token as a suffix and
then as an alias; on a hit the response carries the record's metadata
(creation time, visit count and encoded histogram) together with the
exported histogram rows; when both lookups miss the handler writes no
response (in particular, not a 404). -/
theorem C7_stats_resolution (store : Store) (token : String)
    (ht : token ≠ "") :
    (∀ r rows, get store (.raw token) = some (.record r) →
      getMetadata r = .ok rows →
      InfoHandler store token = (.okInfo r.Meta rows, store)) ∧
    (get store (.raw token) = none → get store (.hash token) = none →
      get store (.raw "") = none →
      InfoHandler store token = (.noResponse, store)) ∧
    (∀ rid r rows, get store (.raw token) = none →
      get store (.hash token) = some (.ptr rid) →
      get store (.raw rid) = some (.record r) →
      getMetadata r = .ok rows →
      InfoHandler store token = (.okInfo r.Meta rows, store)) := by
  refine ⟨?_, ?_, ?_⟩
  · intro r rows hget hmeta
    simp [InfoHandler, ht, hget, hmeta]
  · intro h1 h2 h3
    simp [InfoHandler, ht, h1, infoByAlias, h2, infoByRecordId, h3]
  · intro rid r rows h1 h2 h3 hmeta
    simp [InfoHandler, ht, h1, infoByAlias, h2, infoByRecordId, h3, hmeta]

/-- Witness for the amended C7: stats of a stored suffix. -/
theorem C7_witness :
    InfoHandler demoStore "s" =
      (.okInfo demoRec.Meta [["from", "to", "count"]], demoStore) :=
  (C7_stats_resolution demoStore "s" (by decide)).1 demoRec
    [["from", "to", "count"]] (by decide) (by rfl)

/-- Claim C3: starting from a freshly initialized record, any sequence of
`k` successful redirect events leaves the visit counter at `k` and the
decoded histogram's total count at `k`; each redirect either increments
both together or — when the metadata update fails — mutates neither, the
handler answering 500 with the store unchanged. -/
theorem C3_count_consistency (original sfx : String) (now : Int)
    (ts : List Int) (r' : ShortUrl)
    (h : applyRedirects (freshShortUrl original sfx now) ts = some r') :
    (r'.Meta.Visits = (ts.length : Int) ∧
      (Hist.decode r'.Meta.EncodedHist).map Hist.totalCount = some ts.length) ∧
    (∀ (r r'' : ShortUrl) (t : Int), r.updateRecord t = .ok r'' →
      r''.Meta.Visits = r.Meta.Visits + 1 ∧
      ((Hist.decode r.Meta.EncodedHist).map Hist.totalCount).map (· + 1) =
        (Hist.decode r''.Meta.EncodedHist).map Hist.totalCount) ∧
    (∀ (S : Store) (tok : String) (r : ShortUrl) (t : Int) (e : HistErr),
      tok ≠ "" → get S (.raw tok) = some (.record r) →
      updateMetadata S r t = .error e →
      RedirectHandler S tok t = (.serverError, S)) := by
  refine ⟨?_, fun r r'' t hu => updateRecord_incr r r'' t hu, ?_⟩
  · have h0v : (freshShortUrl original sfx now).Meta.Visits = ((0 : Nat) : Int) := by
      simp [freshShortUrl, initMetadata]
    have h0h : (Hist.decode (freshShortUrl original sfx now).Meta.EncodedHist).map
        Hist.totalCount = some 0 := by
      simp [freshShortUrl, initMetadata, Hist.decode_encode, Hist.totalCount,
        Hist.new]
    have hc := applyRedirects_count ts _ r' 0 h0v h0h h
    simpa using hc
  · intro S tok r t e htok hget hupd
    simp [RedirectHandler, htok, hget, hupd]

/-- Witness for C3: two successful redirects on a fresh record. -/
theorem C3_witness :
    applyRedirects (freshShortUrl "u" "abc" 0) [200000, 200001] =
      some demoTwiceVisited ∧
    demoTwiceVisited.Meta.Visits = (2 : Int) ∧
    (Hist.decode demoTwiceVisited.Meta.EncodedHist).map Hist.totalCount =
      some 2 :=
  ⟨by decide,
    (C3_count_consistency "u" "abc" 0 [200000, 200001] demoTwiceVisited
      (by decide)).1.1,
    (C3_count_consistency "u" "abc" 0 [200000, 200001] demoTwiceVisited
      (by decide)).1.2⟩

theorem foldl_csv (cut : Int) (f : Int × Int × Nat → List String) :
    ∀ (l : List (Int × Int × Nat)) (acc : List (List String)),
      l.foldl (fun recs v => if v.1 < cut then recs else recs ++ [f v]) acc =
        acc ++ (l.filter (fun v => decide (¬ v.1 < cut))).map f := by
  intro l
  induction l with
  | nil => intro acc; simp
  | cons v rest ih =>
    intro acc
    by_cases hv : v.1 < cut
    · simp [List.foldl_cons, hv, ih, List.filter_cons]
    · have hv2 : cut ≤ v.1 := not_lt.mp hv
      simp [List.foldl_cons, hv, hv2, ih, List.filter_cons]

/-- Claim C10: the stats CSV export enumerates the decoded histogram's
distribution in time order but omits every bar whose start timestamp falls
before the hardcoded 2021-01-01 cutoff; only the remaining bars become
`from,to,count` rows after the header. -/
theorem C10_csv_cutoff (r : ShortUrl) (h : Hist)
    (hd : Hist.decode r.Meta.EncodedHist = some h) :
    getMetadata r = .ok (["from", "to", "count"] ::
      (h.distribution.filter (fun v => decide (¬ v.1 < thisYear))).map
        (fun v => [fmtTime v.1, fmtTime v.2.1, toString v.2.2])) := by
  simp [getMetadata, hd, foldl_csv]

/-- Witness for C10: the pre-2021 bucket is dropped, the later one kept. -/
theorem C10_witness :
    getMetadata cutRec = .ok [["from", "to", "count"],
      ["1700000000", "1700000000", "2"]] := by
  have h := C10_csv_cutoff cutRec cutHist (by decide)
  simpa [cutHist, Hist.distribution, thisYear, fmtTime] using h

end UrlShort
